import Mathlib

/-!
Verification of the scheduling and time-range calculation core of the
template-based habit scheduler.

The development shallowly embeds the TypeScript sources:
  * `src/app/src/utils/time.ts`       — time-range calculator
  * `src/app/src/utils/scheduling.ts` — frequency evaluator
  * `src/app/src/config/loader.ts`    — habit-configuration validation

Modelling conventions:
  * JavaScript `Date` instants are modelled as `Int` epoch milliseconds.
  * Dates handled by the frequency evaluator are modelled as `Int` epoch day
    numbers (the evaluator only ever shifts dates by whole days and reads
    the weekday, so the time-of-day component is irrelevant there).
  * An IANA timezone is modelled as a function `Int → Int` giving the zone's
    UTC offset in minutes at a given instant; `fun _ => 0` is UTC and
    `fun _ => o` is a fixed-offset zone.
  * The ambient wall clock (`new Date()`) is an explicit `now : Int`
    parameter; the optional `date` argument of the source functions is an
    `Option Int`, and `date || new Date()` becomes `date.getD now`.
  * Thrown errors become `Except String`; the error strings reproduce the
    messages of the source.
-/

/-- Milliseconds per calendar day (UTC days have no DST). -/
def msPerDay : Int := 86400000

/-! ## HH:MM parsing (`time.ts`, `parseTimeString` / `isValidTimeFormat`)

Both source functions test the same anchored pattern
`^([0-1]?[0-9]|2[0-3]):([0-5][0-9])$`.  `matchTimeList` models that regex on
the character list of the string, returning the captured hour/minute values
as `parseInt` would produce them. -/

/-- `true` iff `c` is an ASCII digit `0`–`9` (character class `[0-9]`). -/
def isDigitChar (c : Char) : Bool := 48 ≤ c.toNat && c.toNat ≤ 57

/-- Numeric value of an ASCII digit character. -/
def digitVal (c : Char) : Nat := c.toNat - 48

/-- Model of the anchored regex `^([0-1]?[0-9]|2[0-3]):([0-5][0-9])$`:
a match is either `D:MM` (one-digit hour) or `HD:MM` with `H ∈ [0-1]` and a
digit, or `2[0-3]`, followed by minutes `[0-5][0-9]`. -/
def matchTimeList : List Char → Option (Nat × Nat)
  | [h1, c, m1, m2] =>
    if c = ':' ∧ isDigitChar h1 = true ∧ 48 ≤ m1.toNat ∧ m1.toNat ≤ 53 ∧
        isDigitChar m2 = true then
      some (digitVal h1, 10 * digitVal m1 + digitVal m2)
    else
      none
  | [h1, h2, c, m1, m2] =>
    if c = ':' ∧
        (((h1 = '0' ∨ h1 = '1') ∧ isDigitChar h2 = true) ∨
          (h1 = '2' ∧ 48 ≤ h2.toNat ∧ h2.toNat ≤ 51)) ∧
        48 ≤ m1.toNat ∧ m1.toNat ≤ 53 ∧ isDigitChar m2 = true then
      some (10 * digitVal h1 + digitVal h2, 10 * digitVal m1 + digitVal m2)
    else
      none
  | _ => none

/-- `parseTimeString` of `time.ts`: parse `HH:MM`, throwing the
invalid-format error on anything the regex rejects. -/
def parseTimeString (timeString : String) : Except String (Nat × Nat) :=
  match matchTimeList timeString.data with
  | some t => Except.ok t
  | none =>
      Except.error
        ("Invalid time format: " ++ timeString ++ ". Expected HH:MM format.")

/-- `isValidTimeFormat` of `time.ts`: test the same `HH:MM` regex. -/
def isValidTimeFormat (timeString : String) : Bool :=
  (matchTimeList timeString.data).isSome

/-! ## Civil-calendar arithmetic

`Date.UTC` and the locale rendering of instants decompose epoch time into
proleptic-Gregorian year/month/day.  `civilFromDays` and `daysFromCivil`
are the standard mutually inverse conversions between epoch day numbers and
civil triples (Lean's `Int` division and remainder are Euclidean, which is
floor-style for the positive divisors used here, matching JavaScript's
calendar decomposition). -/

/-- Civil `(year, month, day)` of an epoch day number. -/
def civilFromDays (z : Int) : Int × Int × Int :=
  let z' := z + 719468
  let era := z' / 146097
  let doe := z' - era * 146097
  let yoe :=
    (doe - doe / 1460 + doe / 36524 - doe / 146096) / 365
  let y := yoe + era * 400
  let doy := doe - (365 * yoe + yoe / 4 - yoe / 100)
  let mp := (5 * doy + 2) / 153
  let d := doy - (153 * mp + 2) / 5 + 1
  let m := mp + (if mp < 10 then 3 else -9)
  (if m ≤ 2 then y + 1 else y, m, d)

/-- Epoch day number of a civil `(year, month, day)`. -/
def daysFromCivil (y m d : Int) : Int :=
  let y' := if m ≤ 2 then y - 1 else y
  let era := y' / 400
  let yoe := y' - era * 400
  let doy := (153 * (m + (if 2 < m then -3 else 9)) + 2) / 5 + d - 1
  let doe := yoe * 365 + yoe / 4 - yoe / 100 + doy
  era * 146097 + doe - 719468

/-! ## The time-range calculator (`time.ts`) -/

/-- A timezone: UTC offset in minutes as a function of the instant. -/
def Timezone : Type := Int → Int

/-- The calendar day (epoch day number) on which instant `t` falls when
rendered in timezone `tz`. -/
def localDayNumber (tz : Timezone) (t : Int) : Int :=
  (t + tz t * 60000) / msPerDay

/-- `createDateTimeInTimezone` of `time.ts`.

The source resolves the year/month/day of `date` in the target timezone via
`toLocaleDateString`, forms midnight UTC of that civil date, reads the
HH:MM at which that midnight renders in the target timezone (taking those
clock digits as the offset), and returns the naive UTC timestamp of the
requested time minus that offset.  Reading the clock digits of the rendered
midnight yields `(offset in ms) emod msPerDay`, which equals the offset for
zones at or ahead of UTC but `offset + msPerDay` for zones behind UTC. -/
def createDateTimeInTimezone (date : Int) (time : Nat × Nat) (tz : Timezone) : Int :=
  let localMs := date + tz date * 60000
  let c := civilFromDays (localMs / msPerDay)
  let midnightUTC := daysFromCivil c.1 c.2.1 c.2.2 * msPerDay
  let offsetMs := tz midnightUTC * 60000 % msPerDay
  let targetTimeMs :=
    midnightUTC + (time.1 : Int) * 3600000 + (time.2 : Int) * 60000
  targetTimeMs - offsetMs

/-- Rendition of the spec's step 4, for comparison with the source's
`createDateTimeInTimezone`: construct the absolute UTC instant of the
requested wall-clock time on the civil date that `date` resolves to in the
timezone, by subtracting the timezone's actual UTC offset for that date
(sampled at that date's midnight UTC) from the naive UTC timestamp. -/
def specCreateDateTimeInTimezone (date : Int) (time : Nat × Nat) (tz : Timezone) : Int :=
  let localMs := date + tz date * 60000
  let c := civilFromDays (localMs / msPerDay)
  let midnightUTC := daysFromCivil c.1 c.2.1 c.2.2 * msPerDay
  let targetTimeMs :=
    midnightUTC + (time.1 : Int) * 3600000 + (time.2 : Int) * 60000
  targetTimeMs - tz midnightUTC * 60000

/-- `HabitConfig` of `types.ts` (the fields used by the core). -/
structure HabitConfig where
  name : String
  templateId : String
  frequency : List String
  startTime : String
  endTime : String
  enabled : Bool
deriving DecidableEq, Repr

/-- `calculateTimeRange` of `time.ts`, at the level of instants: returns
the `(start, end)` epoch-millisecond pair that the source converts to ISO
strings.  `date` is the optional explicit date and `now` the ambient wall
clock used when `date` is absent. -/
def calculateTimeRangeMs (habit : HabitConfig) (tz : Timezone)
    (date : Option Int) (now : Int) : Except String (Int × Int) :=
  let targetDate := date.getD now
  match parseTimeString habit.startTime with
  | Except.error e => Except.error e
  | Except.ok startTime =>
    match parseTimeString habit.endTime with
    | Except.error e => Except.error e
    | Except.ok endTime =>
      let startDateTime := createDateTimeInTimezone targetDate startTime tz
      let endDateTime := createDateTimeInTimezone targetDate endTime tz
      let endDateTime' :=
        if endDateTime ≤ startDateTime then endDateTime + msPerDay
        else endDateTime
      Except.ok (startDateTime, endDateTime')

/-- `calculateTimeRangeFromParams` of `time.ts`, at the level of instants:
identical computation from explicit `startTime`/`endTime` strings. -/
def calculateTimeRangeFromParamsMs (startTime endTime : String) (tz : Timezone)
    (date : Option Int) (now : Int) : Except String (Int × Int) :=
  let targetDate := date.getD now
  match parseTimeString startTime with
  | Except.error e => Except.error e
  | Except.ok st =>
    match parseTimeString endTime with
    | Except.error e => Except.error e
    | Except.ok et =>
      let startDateTime := createDateTimeInTimezone targetDate st tz
      let endDateTime := createDateTimeInTimezone targetDate et tz
      let endDateTime' :=
        if endDateTime ≤ startDateTime then endDateTime + msPerDay
        else endDateTime
      Except.ok (startDateTime, endDateTime')

/-- Zero-pad the decimal rendering of `n` to `width` digits. -/
def padNum (width n : Nat) : String :=
  let s := toString n
  if s.length < width then
    String.mk (List.replicate (width - s.length) '0') ++ s
  else s

/-- `Date.prototype.toISOString`: render an instant as
`YYYY-MM-DDTHH:MM:SS.mmmZ` (years 1–9999, as used by this system). -/
def toISOString (t : Int) : String :=
  let c := civilFromDays (t / msPerDay)
  let msod := (t % msPerDay).toNat
  padNum 4 c.1.toNat ++ "-" ++ padNum 2 c.2.1.toNat ++ "-" ++
    padNum 2 c.2.2.toNat ++ "T" ++ padNum 2 (msod / 3600000) ++ ":" ++
    padNum 2 (msod % 3600000 / 60000) ++ ":" ++
    padNum 2 (msod % 60000 / 1000) ++ "." ++ padNum 3 (msod % 1000) ++ "Z"

/-- `TimeRange` of `types.ts`: ISO-8601 UTC strings. -/
structure TimeRange where
  start : String
  stop : String
deriving DecidableEq, Repr

/-- `calculateTimeRange` of `time.ts` with its ISO-string result. -/
def calculateTimeRange (habit : HabitConfig) (tz : Timezone)
    (date : Option Int) (now : Int) : Except String TimeRange :=
  (calculateTimeRangeMs habit tz date now).map
    (fun p => { start := toISOString p.1, stop := toISOString p.2 })

/-- `calculateTimeRangeFromParams` of `time.ts` with its ISO-string result. -/
def calculateTimeRangeFromParams (startTime endTime : String) (tz : Timezone)
    (date : Option Int) (now : Int) : Except String TimeRange :=
  (calculateTimeRangeFromParamsMs startTime endTime tz date now).map
    (fun p => { start := toISOString p.1, stop := toISOString p.2 })

/-! ## The frequency evaluator (`scheduling.ts`)

Dates are epoch day numbers; epoch day 0 (1970-01-01) was a Thursday, and
JavaScript's `getDay` numbers Sunday as 0, so the weekday index of day `d`
is `(d + 4) emod 7`. -/

/-- `VALID_WEEKDAYS` of `scheduling.ts`. -/
def VALID_WEEKDAYS : List String :=
  ["monday", "tuesday", "wednesday", "thursday", "friday", "saturday", "sunday"]

/-- `getDayName` of `scheduling.ts`: lowercase full-English weekday name. -/
def getDayName (d : Int) : String :=
  let w := (d + 4) % 7
  if w = 0 then "sunday"
  else if w = 1 then "monday"
  else if w = 2 then "tuesday"
  else if w = 3 then "wednesday"
  else if w = 4 then "thursday"
  else if w = 5 then "friday"
  else "saturday"

/-- `isDueToday` of `scheduling.ts`: disabled habits are never due;
otherwise the habit is due iff the weekday name of `date + 1 day` occurs
(exact string match, as with `Array.includes`) in its frequency array. -/
def isDueToday (habit : HabitConfig) (date : Int) : Bool :=
  if habit.enabled = false then false
  else habit.frequency.contains (getDayName (date + 1))

/-- `getScheduledWeekdays` of `scheduling.ts`: the sublist of the frequency
array consisting of valid weekday tokens (duplicates preserved). -/
def getScheduledWeekdays (habit : HabitConfig) : List String :=
  habit.frequency.filter (fun day => VALID_WEEKDAYS.contains day)

/-- `isDaily` of `scheduling.ts`: the valid-token sublist has length 7. -/
def isDaily (habit : HabitConfig) : Bool :=
  (getScheduledWeekdays habit).length == 7

/-- The local `weekdays` array of `isWeekdaysOnly`. -/
def weekdayNames : List String :=
  ["monday", "tuesday", "wednesday", "thursday", "friday"]

/-- `isWeekdaysOnly` of `scheduling.ts`: the valid-token sublist has length
5 and contains each of Monday–Friday. -/
def isWeekdaysOnly (habit : HabitConfig) : Bool :=
  let scheduledDays := getScheduledWeekdays habit
  scheduledDays.length == 5 &&
    weekdayNames.all (fun day => scheduledDays.contains day)

/-- The `for (let i = 1; i <= 7; i++)` scan of `getNextScheduledDate`:
probe `isDueToday` at `startDate + i` for `fuel` successive values of `i`,
returning the first hit. -/
def getNextScheduledDateAux (habit : HabitConfig) (startDate : Int) :
    Nat → Nat → Option Int
  | _, 0 => none
  | i, fuel + 1 =>
    let checkDate := startDate + (i : Int)
    if isDueToday habit checkDate then some checkDate
    else getNextScheduledDateAux habit startDate (i + 1) fuel

/-- `getNextScheduledDate` of `scheduling.ts`: `null` for disabled habits,
else the first of the next 7 dates at which `isDueToday` holds. -/
def getNextScheduledDate (habit : HabitConfig) (fromDate : Int) : Option Int :=
  if habit.enabled = false then none
  else getNextScheduledDateAux habit fromDate 1 7

/-! ## Configuration validation (`config/loader.ts`)

The model covers configurations that already passed the JSON `typeof`
shape guards (every field present with its declared type); for those
inputs the `typeof` branches of the source never fire, and the remaining
checks are the ones modelled here, in source order. -/

/-- `ValidationResult` of `types.ts`. -/
structure ValidationResult where
  valid : Bool
  errors : List String
  warnings : List String
deriving DecidableEq, Repr

/-- JavaScript `String.prototype.trim`, modelled on the character list:
strip leading and trailing whitespace. -/
def trimList (l : List Char) : List Char :=
  ((l.dropWhile Char.isWhitespace).reverse.dropWhile Char.isWhitespace).reverse

/-- The `day.toLowerCase().trim()` normalization of `validateFrequency`,
as a character list. -/
def normalizeDay (day : String) : List Char :=
  trimList (day.data.map Char.toLower)

/-- The error list of `validateFrequency`: empty array, or tokens whose
lowercased/trimmed form is not a valid weekday. -/
def frequencyErrors (frequency : List String) : List String :=
  if frequency = [] then ["frequency array cannot be empty"]
  else
    let invalidDays :=
      frequency.filter
        (fun day => !(VALID_WEEKDAYS.map String.data).contains (normalizeDay day))
    if invalidDays = [] then []
    else
      ["Invalid weekdays in frequency: " ++ String.intercalate ", " invalidDays ++
        ". Valid options: " ++ String.intercalate ", " VALID_WEEKDAYS]

/-- The duplicate scan of `validateFrequency`: a token is reported when its
normalized form was already seen earlier in the array. -/
def frequencyDuplicates (seen : List (List Char)) : List String → List String
  | [] => []
  | day :: rest =>
    let normalizedDay := normalizeDay day
    if seen.contains normalizedDay then
      day :: frequencyDuplicates seen rest
    else frequencyDuplicates (normalizedDay :: seen) rest

/-- The warning list of `validateFrequency` (duplicates only). -/
def frequencyWarnings (frequency : List String) : List String :=
  if frequency = [] then []
  else
    let duplicates := frequencyDuplicates [] frequency
    if duplicates = [] then []
    else ["Duplicate weekdays in frequency: " ++ String.intercalate ", " duplicates]

/-- `validateTimeFormat` of `loader.ts`: the same `HH:MM` regex as the
calculator (`TIME_FORMAT_REGEX`). -/
def timeFormatErrors (time fieldName : String) : List String :=
  if (matchTimeList time.data).isSome then []
  else [fieldName ++ " must be in HH:MM format (e.g., \"07:30\", \"14:00\")"]

/-- `validateTimeRange` of `loader.ts`: with both times well-formed,
reject exactly the pairs denoting the same minute of the day; inverted
pairs are deliberately allowed as cross-midnight ranges. -/
def validateTimeRangeErrors (startTime endTime : String) : List String :=
  match matchTimeList startTime.data, matchTimeList endTime.data with
  | some (startHour, startMin), some (endHour, endMin) =>
    if startHour * 60 + startMin = endHour * 60 + endMin then
      ["startTime (" ++ startTime ++ ") and endTime (" ++ endTime ++
        ") cannot be the same"]
    else []
  | _, _ => []

/-- The basic (pre-`validateTimeRange`) error list of `validateSingleHabit`,
accumulated in source field order. -/
def basicHabitErrors (habit : HabitConfig) : List String :=
  (if trimList habit.name.data = [] then ["name cannot be empty"] else []) ++
  (if trimList habit.templateId.data = [] then ["templateId cannot be empty"] else []) ++
  frequencyErrors habit.frequency ++
  timeFormatErrors habit.startTime "startTime" ++
  timeFormatErrors habit.endTime "endTime"

/-- `validateSingleHabit` of `loader.ts`: basic checks first (returning
early on failure), then the same-minute business rule; `valid` iff the
error list ends up empty. -/
def validateSingleHabit (habit : HabitConfig) : ValidationResult :=
  let warnings := frequencyWarnings habit.frequency
  let errors := basicHabitErrors habit
  if errors ≠ [] then { valid := false, errors := errors, warnings := warnings }
  else
    let errors' := validateTimeRangeErrors habit.startTime habit.endTime
    { valid := errors'.isEmpty, errors := errors', warnings := warnings }

/-- `loadHabitConfig` of `loader.ts`, past the file I/O: keep the habits
`validateSingleHabit` accepts, failing only when none survive. -/
def loadHabitConfig (rawConfig : List HabitConfig) : Except String (List HabitConfig) :=
  let validHabits := rawConfig.filter (fun h => (validateSingleHabit h).valid)
  if validHabits.isEmpty then
    Except.error "No valid habits found in configuration file"
  else Except.ok validHabits

/-! ## Concrete fixtures

Instants are epoch milliseconds: `1705320000000` is 2024-01-15T12:00:00Z
(the reference instant of the repository's own tests), and epoch day
numbers `19723`–`19738` are 2024-01-01 (a Monday) through 2024-01-16. -/

/-- The UTC timezone. -/
def utcTz : Timezone := fun _ => 0

/-- A fixed-offset zone 5 hours behind UTC (America/New_York in January,
when no daylight saving is in effect). -/
def newYorkTz : Timezone := fun _ => -300

/-- The midnight-crossing habit of the repository's tests. -/
def nightHabit : HabitConfig :=
  { name := "Night Habit", templateId := "template-123",
    frequency := ["monday", "tuesday", "wednesday", "thursday", "friday"],
    startTime := "23:30", endTime := "01:00", enabled := true }

/-- The morning habit of the repository's tests. -/
def morningHabit : HabitConfig :=
  { name := "Morning Exercise", templateId := "template-123",
    frequency := ["monday", "tuesday", "wednesday", "thursday", "friday"],
    startTime := "07:00", endTime := "08:00", enabled := true }

/-- A habit whose start and end times denote the same minute. -/
def sameTimesHabit : HabitConfig :=
  { name := "Same Times", templateId := "template-456",
    frequency := ["monday"], startTime := "07:00", endTime := "07:00",
    enabled := true }

/-- An enabled habit whose frequency token carries a capital letter. -/
def capitalMondayHabit : HabitConfig :=
  { name := "Capitalized", templateId := "template-789",
    frequency := ["Monday"], startTime := "07:00", endTime := "08:00",
    enabled := true }

/-- An enabled habit listing the same valid token seven times. -/
def sevenMondaysHabit : HabitConfig :=
  { name := "Seven Mondays", templateId := "template-777",
    frequency := ["monday", "monday", "monday", "monday", "monday",
      "monday", "monday"],
    startTime := "07:00", endTime := "08:00", enabled := true }

/-- The weekend habit of the repository's tests. -/
def weekendHabit : HabitConfig :=
  { name := "Weekend Review", templateId := "template-789",
    frequency := ["saturday", "sunday"], startTime := "19:00",
    endTime := "20:00", enabled := true }

/-- The weekday habit of the repository's tests. -/
def weekdayHabit : HabitConfig :=
  { name := "Weekday Standup", templateId := "template-456",
    frequency := ["monday", "tuesday", "wednesday", "thursday", "friday"],
    startTime := "09:00", endTime := "09:30", enabled := true }

/-- The disabled habit of the repository's tests. -/
def disabledHabit : HabitConfig :=
  { name := "Disabled Habit", templateId := "template-disabled",
    frequency := ["monday"], startTime := "10:00", endTime := "11:00",
    enabled := false }

/-! ## Helper lemmas -/

theorem matchTimeList_bounds {l : List Char} {hh mm : Nat}
    (hm : matchTimeList l = some (hh, mm)) : hh ≤ 23 ∧ mm ≤ 59 := by
  rcases l with _ | ⟨c1, _ | ⟨c2, _ | ⟨c3, _ | ⟨c4, _ | ⟨c5, _ | ⟨c6, rest⟩⟩⟩⟩⟩⟩ <;>
    simp only [matchTimeList] at hm
  any_goals exact Option.noConfusion hm
  · split_ifs at hm with hc
    obtain ⟨-, hd1, hm1lo, hm1hi, hd2⟩ := hc
    simp only [isDigitChar, Bool.and_eq_true, decide_eq_true_eq] at hd1 hd2
    simp only [Option.some.injEq, Prod.mk.injEq] at hm
    obtain ⟨rfl, rfl⟩ := hm
    have e1 : digitVal c1 = c1.toNat - 48 := rfl
    have e3 : digitVal c3 = c3.toNat - 48 := rfl
    have e4 : digitVal c4 = c4.toNat - 48 := rfl
    omega
  · split_ifs at hm with hc
    obtain ⟨-, hhour, hm1lo, hm1hi, hd2⟩ := hc
    simp only [isDigitChar, Bool.and_eq_true, decide_eq_true_eq] at hd2
    simp only [Option.some.injEq, Prod.mk.injEq] at hm
    obtain ⟨rfl, rfl⟩ := hm
    have e4 : digitVal c4 = c4.toNat - 48 := rfl
    have e5 : digitVal c5 = c5.toNat - 48 := rfl
    have e2 : digitVal c2 = c2.toNat - 48 := rfl
    rcases hhour with ⟨hc1, hd⟩ | ⟨hc1, hc2lo, hc2hi⟩
    · simp only [isDigitChar, Bool.and_eq_true, decide_eq_true_eq] at hd
      rcases hc1 with rfl | rfl
      · have e1 : digitVal '0' = 0 := rfl
        omega
      · have e1 : digitVal '1' = 1 := rfl
        omega
    · subst hc1
      have e1 : digitVal '2' = 2 := rfl
      omega

theorem parseTimeString_ok_iff {s : String} {t : Nat × Nat} :
    parseTimeString s = Except.ok t ↔ matchTimeList s.data = some t := by
  unfold parseTimeString
  cases hms : matchTimeList s.data <;> simp

theorem parseTimeString_error_iff {s : String} :
    (∃ msg, parseTimeString s = Except.error msg) ↔ matchTimeList s.data = none := by
  unfold parseTimeString
  cases hms : matchTimeList s.data <;> simp

theorem createDateTimeInTimezone_sub (date : Int) (t1 t2 : Nat × Nat) (tz : Timezone) :
    createDateTimeInTimezone date t1 tz - createDateTimeInTimezone date t2 tz =
      ((t1.1 : Int) * 3600000 + (t1.2 : Int) * 60000) -
        ((t2.1 : Int) * 3600000 + (t2.2 : Int) * 60000) := by
  simp only [createDateTimeInTimezone]
  ring

theorem calculateTimeRangeFromParamsMs_eq (startTime endTime : String)
    (tz : Timezone) (date : Option Int) (now : Int) :
    calculateTimeRangeFromParamsMs startTime endTime tz date now =
      calculateTimeRangeMs
        { name := "", templateId := "", frequency := [],
          startTime := startTime, endTime := endTime, enabled := true }
        tz date now := rfl

theorem calculateTimeRangeMs_lt {habit : HabitConfig} {tz : Timezone}
    {date : Option Int} {now s e : Int}
    (h : calculateTimeRangeMs habit tz date now = Except.ok (s, e)) : s < e := by
  unfold calculateTimeRangeMs at h
  cases hst : parseTimeString habit.startTime with
  | error msg => rw [hst] at h; exact absurd h (by simp)
  | ok st =>
    cases het : parseTimeString habit.endTime with
    | error msg => rw [hst, het] at h; exact absurd h (by simp)
    | ok et =>
      rw [hst, het] at h
      obtain ⟨hsh, hsm⟩ := matchTimeList_bounds (parseTimeString_ok_iff.mp hst)
      obtain ⟨heh, hem⟩ := matchTimeList_bounds (parseTimeString_ok_iff.mp het)
      have hdiff := createDateTimeInTimezone_sub (date.getD now) st et tz
      simp only [Except.ok.injEq, Prod.mk.injEq] at h
      split at h <;>
      · obtain ⟨rfl, rfl⟩ := h
        simp only [msPerDay] at *
        omega

/-! ## Claim theorems -/

/-- C4: for every valid input, the time range returned by
`calculateTimeRange` and `calculateTimeRangeFromParams` satisfies
`end > start` strictly as instants, including midnight-crossing and
equal-time cases. -/
theorem calculateTimeRange_range_ordering :
    (∀ (habit : HabitConfig) (tz : Timezone) (date : Option Int) (now s e : Int),
      calculateTimeRangeMs habit tz date now = Except.ok (s, e) → s < e) ∧
    (∀ (startTime endTime : String) (tz : Timezone) (date : Option Int) (now s e : Int),
      calculateTimeRangeFromParamsMs startTime endTime tz date now = Except.ok (s, e) →
        s < e) := by
  constructor
  · intro habit tz date now s e h
    exact calculateTimeRangeMs_lt h
  · intro st et tz date now s e h
    rw [calculateTimeRangeFromParamsMs_eq] at h
    exact calculateTimeRangeMs_lt h

/-- Witness for C4 at the repository's test fixture: 07:00–08:00 UTC on
2024-01-15. -/
theorem calculateTimeRange_range_ordering_witness :
    calculateTimeRangeMs morningHabit utcTz (some 1705320000000) 0 =
      Except.ok (1705302000000, 1705305600000) ∧ (1705302000000 : Int) < 1705305600000 :=
  ⟨rfl, calculateTimeRange_range_ordering.1 morningHabit utcTz (some 1705320000000) 0
    1705302000000 1705305600000 rfl⟩

/-- C9: with an explicitly supplied date, `calculateTimeRange` and
`calculateTimeRangeFromParams` are deterministic functions of their
arguments: the ambient wall clock does not influence the resulting ISO
strings, so two calls with identical inputs agree byte for byte. -/
theorem calculateTimeRange_deterministic :
    ∀ (habit : HabitConfig) (startTime endTime : String) (tz : Timezone)
      (t now1 now2 : Int),
      calculateTimeRange habit tz (some t) now1 =
        calculateTimeRange habit tz (some t) now2 ∧
      calculateTimeRangeFromParams startTime endTime tz (some t) now1 =
        calculateTimeRangeFromParams startTime endTime tz (some t) now2 :=
  fun _ _ _ _ _ _ _ => ⟨rfl, rfl⟩

/-- C1 fails on the code: with timezone UTC and explicit reference instant
2024-01-15T12:00:00Z, `calculateTimeRange` and
`calculateTimeRangeFromParams` compute the range on the reference date
itself (start 2024-01-15T23:30:00.000Z), not on the next calendar day
(2024-01-16T23:30:00.000Z) as the claim, the repository's own tests and
its design document state. -/
theorem calculateTimeRange_no_tomorrow_offset :
    calculateTimeRange nightHabit utcTz (some 1705320000000) 0 =
      Except.ok { start := "2024-01-15T23:30:00.000Z",
                  stop := "2024-01-16T01:00:00.000Z" } ∧
    calculateTimeRangeFromParams "23:30" "01:00" utcTz (some 1705320000000) 0 =
      Except.ok { start := "2024-01-15T23:30:00.000Z",
                  stop := "2024-01-16T01:00:00.000Z" } ∧
    "2024-01-15T23:30:00.000Z" ≠ "2024-01-16T23:30:00.000Z" :=
  ⟨rfl, rfl, by decide⟩

/-- C2 fails on the code for zones behind UTC: for a fixed −5h zone the
instant returned by `createDateTimeInTimezone` is one full day earlier
than the spec's construction (naive UTC timestamp minus the zone's actual
offset); rendered in the zone it shows 07:00 on 2024-01-14 (local day
19736) instead of on the resolved target date 2024-01-15 (local day
19737).  For UTC itself the two constructions agree. -/
theorem createDateTimeInTimezone_behind_utc_day_early :
    createDateTimeInTimezone 1705320000000 (7, 0) newYorkTz = 1705233600000 ∧
    specCreateDateTimeInTimezone 1705320000000 (7, 0) newYorkTz = 1705320000000 ∧
    createDateTimeInTimezone 1705320000000 (7, 0) newYorkTz =
      specCreateDateTimeInTimezone 1705320000000 (7, 0) newYorkTz - msPerDay ∧
    localDayNumber newYorkTz (createDateTimeInTimezone 1705320000000 (7, 0) newYorkTz) =
      19736 ∧
    localDayNumber newYorkTz (specCreateDateTimeInTimezone 1705320000000 (7, 0) newYorkTz) =
      19737 ∧
    createDateTimeInTimezone 1705320000000 (7, 0) utcTz =
      specCreateDateTimeInTimezone 1705320000000 (7, 0) utcTz :=
  ⟨rfl, rfl, rfl, rfl, rfl, rfl⟩

/-- C6: the calculation succeeds exactly when both time strings pass the
`HH:MM` pattern that `isValidTimeFormat` tests, and otherwise it produces
the distinguishable invalid-time-format error message (naming the
offending string) and no partial result. -/
theorem calculateTimeRange_invalid_format_errors :
    (∀ (startTime endTime : String) (tz : Timezone) (date : Option Int) (now : Int),
      ((∃ r, calculateTimeRangeFromParamsMs startTime endTime tz date now = Except.ok r) ↔
        (isValidTimeFormat startTime = true ∧ isValidTimeFormat endTime = true)) ∧
      (∀ msg,
        calculateTimeRangeFromParamsMs startTime endTime tz date now = Except.error msg →
        msg = "Invalid time format: " ++ startTime ++ ". Expected HH:MM format." ∨
        msg = "Invalid time format: " ++ endTime ++ ". Expected HH:MM format.")) ∧
    (∀ (habit : HabitConfig) (tz : Timezone) (date : Option Int) (now : Int),
      (∃ r, calculateTimeRangeMs habit tz date now = Except.ok r) ↔
        (isValidTimeFormat habit.startTime = true ∧
          isValidTimeFormat habit.endTime = true)) := by
  constructor
  · intro st et tz date now
    unfold calculateTimeRangeFromParamsMs isValidTimeFormat parseTimeString
    cases hst : matchTimeList st.data <;> cases het : matchTimeList et.data <;> simp
  · intro habit tz date now
    unfold calculateTimeRangeMs isValidTimeFormat parseTimeString
    cases hst : matchTimeList habit.startTime.data <;>
      cases het : matchTimeList habit.endTime.data <;> simp

/-- Witness for C6: well-formed times are accepted, and `25:00` produces
exactly the invalid-time-format message naming it. -/
theorem calculateTimeRange_invalid_format_errors_witness :
    (isValidTimeFormat "07:00" = true ∧ isValidTimeFormat "08:00" = true) ∧
    ("Invalid time format: 25:00. Expected HH:MM format." =
        "Invalid time format: " ++ "25:00" ++ ". Expected HH:MM format." ∨
      "Invalid time format: 25:00. Expected HH:MM format." =
        "Invalid time format: " ++ "08:00" ++ ". Expected HH:MM format.") :=
  ⟨(calculateTimeRange_invalid_format_errors.1 "07:00" "08:00" utcTz
        (some 1705320000000) 0).1.mp ⟨(1705302000000, 1705305600000), rfl⟩,
    (calculateTimeRange_invalid_format_errors.1 "25:00" "08:00" utcTz
        (some 1705320000000) 0).2 _ rfl⟩

theorem contains_iff_mem {l : List String} {a : String} :
    l.contains a = true ↔ a ∈ l := List.elem_iff

theorem getDayName_mem_VALID (d : Int) : getDayName d ∈ VALID_WEEKDAYS := by
  simp only [getDayName]
  split_ifs <;> decide

theorem getDayName_congr {x y : Int} (h : (x + 4) % 7 = (y + 4) % 7) :
    getDayName x = getDayName y := by
  simp only [getDayName]
  rw [h]

theorem exists_scheduled_day_congr (base c : Int) :
    ∃ j : Nat, 1 ≤ j ∧ j ≤ 7 ∧ getDayName (base + (j : Int)) = getDayName c := by
  refine ⟨((c - base - 1) % 7).toNat + 1, by omega, by omega,
    getDayName_congr (by push_cast; omega)⟩

theorem exists_scheduled_day (base : Int) (w : String) (hw : w ∈ VALID_WEEKDAYS) :
    ∃ j : Nat, 1 ≤ j ∧ j ≤ 7 ∧ getDayName (base + (j : Int)) = w := by
  simp only [VALID_WEEKDAYS, List.mem_cons, List.not_mem_nil, or_false] at hw
  rcases hw with rfl | rfl | rfl | rfl | rfl | rfl | rfl
  · simpa only [show getDayName 4 = "monday" from rfl] using
      exists_scheduled_day_congr base 4
  · simpa only [show getDayName 5 = "tuesday" from rfl] using
      exists_scheduled_day_congr base 5
  · simpa only [show getDayName 6 = "wednesday" from rfl] using
      exists_scheduled_day_congr base 6
  · simpa only [show getDayName 0 = "thursday" from rfl] using
      exists_scheduled_day_congr base 0
  · simpa only [show getDayName 1 = "friday" from rfl] using
      exists_scheduled_day_congr base 1
  · simpa only [show getDayName 2 = "saturday" from rfl] using
      exists_scheduled_day_congr base 2
  · simpa only [show getDayName 3 = "sunday" from rfl] using
      exists_scheduled_day_congr base 3

/-- C3 (amended): `isDueToday` is true iff the habit is enabled and the
lowercase weekday name of `date + 1` occurs in the frequency array by
exact string match (the source compares with `Array.includes`, so the
comparison is case-sensitive, not case-insensitive as the claim states);
it is always false for disabled habits, and a frequency with no valid
lowercase tokens makes the habit never due — the function is total and
never throws. -/
theorem isDueToday_iff (habit : HabitConfig) (d : Int) :
    (isDueToday habit d = true ↔
      habit.enabled = true ∧ getDayName (d + 1) ∈ habit.frequency) ∧
    (habit.enabled = false → isDueToday habit d = false) ∧
    ((∀ w ∈ habit.frequency, w ∉ VALID_WEEKDAYS) → isDueToday habit d = false) := by
  refine ⟨?_, ?_, ?_⟩
  · unfold isDueToday
    cases he : habit.enabled <;> simp [contains_iff_mem]
  · intro he
    unfold isDueToday
    simp [he]
  · intro hall
    unfold isDueToday
    cases he : habit.enabled
    · simp
    · simp only [Bool.true_eq_false, if_false]
      rw [← Bool.not_eq_true, contains_iff_mem]
      exact fun hmem => hall _ hmem (getDayName_mem_VALID (d + 1))

/-- Witness for C3 at the repository's test fixtures: the disabled habit
is not due on 2024-01-01, and the weekday habit is due on Sunday
2024-01-07 because the following day is a Monday. -/
theorem isDueToday_iff_witness :
    isDueToday disabledHabit 19723 = false ∧
    isDueToday weekdayHabit 19729 = true :=
  ⟨(isDueToday_iff disabledHabit 19723).2.1 rfl,
    ((isDueToday_iff weekdayHabit 19729).1).mpr ⟨rfl, by decide⟩⟩

/-- Counterexample to C3 as stated: an enabled habit whose frequency
contains `"Monday"` is claimed due (case-insensitively, `"Monday"`
lowercases character-wise to the target weekday name) on Sunday
2024-01-07, but `isDueToday` returns false because the comparison is
exact. -/
theorem isDueToday_case_counterexample :
    capitalMondayHabit.enabled = true ∧
    (∃ w ∈ capitalMondayHabit.frequency,
      w.data.map Char.toLower = (getDayName (19729 + 1)).data) ∧
    isDueToday capitalMondayHabit 19729 = false := by
  exact ⟨rfl, ⟨"Monday", by decide, by decide⟩, rfl⟩

/-- C7 (amended): for habits without duplicate frequency tokens,
`isDaily` holds iff every valid weekday occurs among the scheduled
tokens, `isWeekdaysOnly` holds iff the scheduled tokens are exactly
Monday–Friday, and `isWeekdaysOnly` excludes `isDaily`.  (As stated the
claim fails for duplicated tokens, which the length-based source counts
with multiplicity.) -/
theorem frequency_classification (habit : HabitConfig)
    (hnd : habit.frequency.Nodup) :
    (isDaily habit = true ↔ ∀ w ∈ VALID_WEEKDAYS, w ∈ getScheduledWeekdays habit) ∧
    (isWeekdaysOnly habit = true ↔
      ((∀ w ∈ weekdayNames, w ∈ getScheduledWeekdays habit) ∧
        ∀ w ∈ getScheduledWeekdays habit, w ∈ weekdayNames)) ∧
    (isWeekdaysOnly habit = true → isDaily habit = false) := by
  have hsnd : (getScheduledWeekdays habit).Nodup := hnd.filter _
  have hsub : getScheduledWeekdays habit ⊆ VALID_WEEKDAYS := by
    intro w hw
    exact contains_iff_mem.mp (List.mem_filter.mp hw).2
  have hlenV : VALID_WEEKDAYS.length = 7 := rfl
  have hndV : VALID_WEEKDAYS.Nodup := by decide
  have hlenW : weekdayNames.length = 5 := rfl
  have hndW : weekdayNames.Nodup := by decide
  refine ⟨?_, ?_, ?_⟩
  · unfold isDaily
    rw [beq_iff_eq]
    constructor
    · intro hlen w hw
      have hsp : List.Subperm (getScheduledWeekdays habit) VALID_WEEKDAYS :=
        hsnd.subperm hsub
      have hperm := hsp.perm_of_length_le (by omega)
      exact hperm.mem_iff.mpr hw
    · intro hall
      have h1 : List.Subperm VALID_WEEKDAYS (getScheduledWeekdays habit) :=
        hndV.subperm (fun w hw => hall w hw)
      have h2 : List.Subperm (getScheduledWeekdays habit) VALID_WEEKDAYS :=
        hsnd.subperm hsub
      have hl1 := h1.length_le
      have hl2 := h2.length_le
      omega
  · unfold isWeekdaysOnly
    simp only [Bool.and_eq_true, beq_iff_eq, List.all_eq_true]
    constructor
    · rintro ⟨hlen, hall⟩
      have hWsub : weekdayNames ⊆ getScheduledWeekdays habit := by
        intro w hw
        exact contains_iff_mem.mp (hall w hw)
      have hsp : List.Subperm weekdayNames (getScheduledWeekdays habit) :=
        hndW.subperm hWsub
      have hperm := hsp.perm_of_length_le (by omega)
      exact ⟨fun w hw => hperm.mem_iff.mp hw, fun w hw => hperm.mem_iff.mpr hw⟩
    · rintro ⟨h1, h2⟩
      have hsp1 : List.Subperm weekdayNames (getScheduledWeekdays habit) :=
        hndW.subperm (fun w hw => h1 w hw)
      have hsp2 : List.Subperm (getScheduledWeekdays habit) weekdayNames :=
        hsnd.subperm (fun w hw => h2 w hw)
      have hl1 := hsp1.length_le
      have hl2 := hsp2.length_le
      refine ⟨by omega, fun w hw => contains_iff_mem.mpr (h1 w hw)⟩
  · intro hw
    unfold isWeekdaysOnly at hw
    simp only [Bool.and_eq_true, beq_iff_eq] at hw
    unfold isDaily
    simp [hw.1]

/-- Witness for C7: the Monday–Friday test habit is weekdays-only and
hence not daily. -/
theorem frequency_classification_witness :
    isDaily weekdayHabit = false :=
  (frequency_classification weekdayHabit (by decide)).2.2 rfl

/-- Counterexample to C7 as stated: a frequency listing `"monday"` seven
times makes `isDaily` true although the set of valid tokens is not all
seven weekdays (`"tuesday"` is missing). -/
theorem frequency_classification_counterexample :
    isDaily sevenMondaysHabit = true ∧
    "tuesday" ∈ VALID_WEEKDAYS ∧
    "tuesday" ∉ getScheduledWeekdays sevenMondaysHabit :=
  ⟨rfl, by decide, by decide⟩

/-- C5 (amended): for a fixed-offset timezone, when the parsed end time is
numerically at or before the parsed start time (as minutes of the day,
which is the `end <= start` comparison the source makes on the computed
instants), the resulting end instant falls on the local calendar day
exactly one after the start instant's; when the end time is numerically
later, both fall on the same local calendar day.  (As stated the claim
fails: the source compares numerically, not lexically, and sends the
equal-time case to the next day, not the same day.) -/
theorem calculateTimeRange_midnight_crossing (o : Int) (tz : Timezone)
    (hconst : ∀ t, tz t = o) (habit : HabitConfig) (date : Option Int) (now s e : Int) (sh sm eh em : Nat)
    (hst : parseTimeString habit.startTime = Except.ok (sh, sm))
    (het : parseTimeString habit.endTime = Except.ok (eh, em))
    (hcalc : calculateTimeRangeMs habit tz date now = Except.ok (s, e)) :
    (eh * 60 + em ≤ sh * 60 + sm →
      localDayNumber tz e = localDayNumber tz s + 1) ∧
    (sh * 60 + sm < eh * 60 + em → localDayNumber tz e = localDayNumber tz s) := by
  obtain ⟨hsh, hsm⟩ := matchTimeList_bounds (parseTimeString_ok_iff.mp hst)
  obtain ⟨heh, hem⟩ := matchTimeList_bounds (parseTimeString_ok_iff.mp het)
  unfold calculateTimeRangeMs at hcalc
  rw [hst, het] at hcalc
  simp only [createDateTimeInTimezone, localDayNumber, msPerDay, hconst] at hcalc ⊢
  split at hcalc <;>
  · simp only [Except.ok.injEq, Prod.mk.injEq] at hcalc
    obtain ⟨rfl, rfl⟩ := hcalc
    constructor <;> intro hle <;> omega

/-- Witness for C5 at the midnight-crossing test fixture 23:30–01:00 UTC:
the end falls on the local day after the start. -/
theorem calculateTimeRange_midnight_crossing_witness :
    calculateTimeRangeMs nightHabit utcTz (some 1705320000000) 0 =
      Except.ok (1705361400000, 1705366800000) ∧
    localDayNumber utcTz 1705366800000 = localDayNumber utcTz 1705361400000 + 1 :=
  ⟨rfl,
    (calculateTimeRange_midnight_crossing 0 utcTz (fun _ => rfl) nightHabit
        (some 1705320000000) 0 1705361400000 1705366800000
        23 30 1 0 rfl rfl rfl).1 (by norm_num)⟩

/-- Counterexample to C5 as stated: with `startTime = endTime = "07:00"`
the end time is not lexically less than the start time, so the claim puts
start and end on the same calendar day, but the source's `end <= start`
comparison adds a day: the end lands on the local day after the start. -/
theorem calculateTimeRange_midnight_crossing_counterexample :
    sameTimesHabit.endTime = sameTimesHabit.startTime ∧
    calculateTimeRangeMs sameTimesHabit utcTz (some 1705320000000) 0 =
      Except.ok (1705302000000, 1705388400000) ∧
    localDayNumber utcTz 1705388400000 = localDayNumber utcTz 1705302000000 + 1 :=
  ⟨rfl, rfl, rfl⟩

theorem getNextScheduledDateAux_some {habit : HabitConfig} {startDate : Int} :
    ∀ (fuel i : Nat) (d : Int),
      getNextScheduledDateAux habit startDate i fuel = some d →
      ∃ j : Nat, i ≤ j ∧ j < i + fuel ∧ d = startDate + (j : Int) ∧
        isDueToday habit (startDate + (j : Int)) = true ∧
        ∀ k : Nat, i ≤ k → k < j → isDueToday habit (startDate + (k : Int)) = false := by
  intro fuel
  induction fuel with
  | zero =>
    intro i d h
    simp only [getNextScheduledDateAux] at h
    exact Option.noConfusion h
  | succ n ih =>
    intro i d h
    simp only [getNextScheduledDateAux] at h
    cases hdue : isDueToday habit (startDate + (i : Int)) with
    | true =>
      rw [hdue] at h
      simp only [if_true, Option.some.injEq] at h
      exact ⟨i, le_refl i, by omega, h.symm, hdue, fun k hk1 hk2 => by omega⟩
    | false =>
      rw [hdue] at h
      simp only [Bool.false_eq_true, if_false] at h
      obtain ⟨j, hij, hlt, hd, hdue', hmin⟩ := ih (i + 1) d h
      refine ⟨j, by omega, by omega, hd, hdue', ?_⟩
      intro k hk1 hk2
      rcases Nat.eq_or_lt_of_le hk1 with rfl | hk
      · exact hdue
      · exact hmin k (by omega) hk2

theorem getNextScheduledDateAux_isSome {habit : HabitConfig} {startDate : Int} :
    ∀ (fuel i j : Nat), i ≤ j → j < i + fuel →
      isDueToday habit (startDate + (j : Int)) = true →
      ∃ d, getNextScheduledDateAux habit startDate i fuel = some d := by
  intro fuel
  induction fuel with
  | zero =>
    intro i j h1 h2
    omega
  | succ n ih =>
    intro i j h1 h2 hdue
    cases hd : isDueToday habit (startDate + (i : Int)) with
    | true =>
      refine ⟨startDate + (i : Int), ?_⟩
      simp only [getNextScheduledDateAux, hd, if_true]
    | false =>
      have hij : i ≠ j := by
        intro he
        rw [he] at hd
        rw [hd] at hdue
        exact Bool.noConfusion hdue
      obtain ⟨d, hres⟩ := ih (i + 1) j (by omega) (by omega) hdue
      refine ⟨d, ?_⟩
      simp only [getNextScheduledDateAux, hd, Bool.false_eq_true, if_false, hres]

theorem isDueToday_exists_within_seven (habit : HabitConfig) (fromDate : Int)
    (hen : habit.enabled = true) (w : String) (hwf : w ∈ habit.frequency)
    (hwv : w ∈ VALID_WEEKDAYS) :
    ∃ j : Nat, 1 ≤ j ∧ j ≤ 7 ∧ isDueToday habit (fromDate + (j : Int)) = true := by
  obtain ⟨j, h1, h7, hname⟩ := exists_scheduled_day (fromDate + 1) w hwv
  refine ⟨j, h1, h7, ?_⟩
  unfold isDueToday
  rw [hen]
  have harith : fromDate + (j : Int) + 1 = fromDate + 1 + (j : Int) := by ring
  simp only [Bool.true_eq_false, if_false, harith, hname]
  exact contains_iff_mem.mpr hwf

/-- C8 (amended): `getNextScheduledDate` returns null exactly for disabled
habits; for an enabled habit whose frequency holds at least one valid
weekday token it returns the earliest date `d` with
`fromDate < d ≤ fromDate + 7` at which `isDueToday` holds — i.e. the
earliest strictly later date whose *following* day's weekday is in the
frequency (the habit's creation date, one day before it is due), not the
earliest date whose own weekday is in the frequency as the claim
states. -/
theorem getNextScheduledDate_spec (habit : HabitConfig) (fromDate : Int) :
    (habit.enabled = false → getNextScheduledDate habit fromDate = none) ∧
    (habit.enabled = true →
      (∃ w, w ∈ habit.frequency ∧ w ∈ VALID_WEEKDAYS) →
      ∃ d, getNextScheduledDate habit fromDate = some d ∧
        fromDate < d ∧ d ≤ fromDate + 7 ∧
        isDueToday habit d = true ∧
        ∀ d' : Int, fromDate < d' → d' < d → isDueToday habit d' = false) := by
  constructor
  · intro he
    unfold getNextScheduledDate
    simp [he]
  · intro hen hw
    obtain ⟨w, hwf, hwv⟩ := hw
    obtain ⟨j, hj1, hj7, hdue⟩ :=
      isDueToday_exists_within_seven habit fromDate hen w hwf hwv
    obtain ⟨d, hd⟩ := getNextScheduledDateAux_isSome 7 1 j hj1 (by omega) hdue
    have hrun : getNextScheduledDate habit fromDate = some d := by
      unfold getNextScheduledDate
      simp [hen, hd]
    obtain ⟨j0, hi, hlt, rfl, hdue0, hmin⟩ := getNextScheduledDateAux_some 7 1 d hd
    refine ⟨_, hrun, by omega, by omega, hdue0, ?_⟩
    intro d' h1 h2
    obtain ⟨k, rfl, hk1, hk2⟩ :
        ∃ k : Nat, d' = fromDate + (k : Int) ∧ 1 ≤ k ∧ k < j0 :=
      ⟨(d' - fromDate).toNat, by omega, by omega, by omega⟩
    exact hmin k hk1 hk2

/-- Witness for C8 at the weekend test habit from Monday 2024-01-01. -/
theorem getNextScheduledDate_spec_witness :
    ∃ d, getNextScheduledDate weekendHabit 19723 = some d ∧
      19723 < d ∧ d ≤ 19723 + 7 ∧ isDueToday weekendHabit d = true ∧
      ∀ d' : Int, 19723 < d' → d' < d → isDueToday weekendHabit d' = false :=
  (getNextScheduledDate_spec weekendHabit 19723).2 rfl
    ⟨"saturday", by decide, by decide⟩

/-- Counterexample to C8 as stated: from Monday 2024-01-01 (day 19723)
the weekend habit's next scheduled date per the claim is Saturday
2024-01-06, the earliest later date whose own weekday is in the
frequency; the source instead returns Friday 2024-01-05 (day 19727),
whose own weekday name is not in the frequency at all. -/
theorem getNextScheduledDate_counterexample :
    getNextScheduledDate weekendHabit 19723 = some 19727 ∧
    getDayName 19727 = "friday" ∧
    "friday" ∉ weekendHabit.frequency :=
  ⟨rfl, rfl, by decide⟩

theorem validateSingleHabit_equal_minutes {h : HabitConfig} {sh sm eh em : Nat}
    (hs : matchTimeList h.startTime.data = some (sh, sm))
    (he : matchTimeList h.endTime.data = some (eh, em))
    (heq : sh * 60 + sm = eh * 60 + em) :
    (validateSingleHabit h).valid = false ∧ (validateSingleHabit h).errors ≠ [] := by
  unfold validateSingleHabit
  by_cases hb : basicHabitErrors h = []
  · rw [if_neg (by simp [hb])]
    unfold validateTimeRangeErrors
    rw [hs, he]
    simp [heq]
  · rw [if_pos hb]
    exact ⟨rfl, hb⟩

/-- C10: configuration validation rejects, with an error and never a mere
warning, every well-typed habit whose start and end times denote the same
minute of the day, while accepting cross-midnight (inverted) pairs
whenever the basic field checks pass; consequently no habit surviving
`loadHabitConfig` has equal start and end minutes, even though the
calculator itself accepts equal times. -/
theorem loader_rejects_equal_times :
    (∀ (h : HabitConfig) (sh sm eh em : Nat),
      matchTimeList h.startTime.data = some (sh, sm) →
      matchTimeList h.endTime.data = some (eh, em) →
      sh * 60 + sm = eh * 60 + em →
      (validateSingleHabit h).valid = false ∧ (validateSingleHabit h).errors ≠ []) ∧
    (∀ (h : HabitConfig) (sh sm eh em : Nat),
      basicHabitErrors h = [] →
      matchTimeList h.startTime.data = some (sh, sm) →
      matchTimeList h.endTime.data = some (eh, em) →
      sh * 60 + sm ≠ eh * 60 + em →
      (validateSingleHabit h).valid = true) ∧
    (∀ (raw habits : List HabitConfig), loadHabitConfig raw = Except.ok habits →
      ∀ g ∈ habits, ∀ (sh sm eh em : Nat),
        matchTimeList g.startTime.data = some (sh, sm) →
        matchTimeList g.endTime.data = some (eh, em) →
        sh * 60 + sm ≠ eh * 60 + em) ∧
    (∃ r, calculateTimeRangeMs sameTimesHabit utcTz (some 1705320000000) 0 =
      Except.ok r) := by
  refine ⟨?_, ?_, ?_, ?_⟩
  · intro h sh sm eh em hs he heq
    exact validateSingleHabit_equal_minutes hs he heq
  · intro h sh sm eh em hb hs he hne
    unfold validateSingleHabit
    rw [if_neg (by simp [hb])]
    unfold validateTimeRangeErrors
    rw [hs, he]
    simp [hne]
  · intro raw habits hload g hg sh sm eh em hs he
    intro heq
    simp only [loadHabitConfig] at hload
    split at hload
    · exact Except.noConfusion hload
    · simp only [Except.ok.injEq] at hload
      subst hload
      have hvalid : (validateSingleHabit g).valid = true :=
        (List.mem_filter.mp hg).2
      have := (validateSingleHabit_equal_minutes hs he heq).1
      rw [hvalid] at this
      exact Bool.noConfusion this
  · exact ⟨(1705302000000, 1705388400000), rfl⟩

/-- Witness for C10: the equal-times habit is rejected with an error,
and the inverted pair 23:00–06:00 is accepted. -/
theorem loader_rejects_equal_times_witness :
    ((validateSingleHabit sameTimesHabit).valid = false ∧
      (validateSingleHabit sameTimesHabit).errors ≠ []) ∧
    (validateSingleHabit
      { name := "Night", templateId := "t", frequency := ["monday"],
        startTime := "23:00", endTime := "06:00", enabled := true }).valid = true :=
  ⟨loader_rejects_equal_times.1 sameTimesHabit 7 0 7 0 rfl rfl rfl,
    loader_rejects_equal_times.2.1
      { name := "Night", templateId := "t", frequency := ["monday"],
        startTime := "23:00", endTime := "06:00", enabled := true }
      23 0 6 0 (by decide) rfl rfl (by norm_num)⟩
